import Mathlib

/-!
Verification of the Unraid disk-temperature monitoring scripts.

The repository contains two shell scripts that parse the sectioned
key/value file `disks.ini` and emit gauge metrics over UDP:

* `src/datadog/unraid_disk_temp_monitoring.sh` (the slot-based variant,
  embedded below as `SlotVariant`): the section header seeds the
  identifier (`current_slot`), and only `id=` / `temp=` / `type=` lines
  are recognized, via an `elif` chain with `cut -d= -f2`.

* the multi-field variant embedded in `src/unnamed/part_001`
  (embedded below as `MultiField`): the section header only delimits
  blocks (all variables reset to empty), and a `case` statement
  recognizes `name`, `id`, `temp`, `type`, `device`, `transport`,
  `rotational` keys, with `cut -d= -f2-`.

Strings are modelled as `List Char`.  Each shell construct is translated
directly: the sed whitespace trimming becomes `trim`, the
bracketed-quoted-header regex test becomes `isHeader`, the tr deletion
commands become filters, the tr case conversion becomes `trLower` via
the zipped alphabet tables, the cut field splitters become the
corresponding list splitters, and the read-loop becomes a `List.foldl`
over the generic step function `genStep`, instantiated once per
script.
-/

/-- Strings of the shell model, as lists of characters. -/
abbrev Str := List Char

/-- The double-quote character. -/
def dquote : Char := '"'

/-- Characters of the POSIX `[[:space:]]` class used by the `sed` trim. -/
def isSpaceChar (c : Char) : Bool :=
  c == ' ' || c == '\t' || c == '\n' || c == '\x0b' || c == '\x0c' || c == '\r'

/-- The sed substitution pair of the loop body: strip leading and
trailing whitespace. -/
def trim (l : Str) : Str :=
  ((l.dropWhile isSpaceChar).reverse.dropWhile isSpaceChar).reverse

/-- The section-header regex test of the loop: the line is an opening
bracket and double quote, then at least one character, then a double
quote and closing bracket. -/
def isHeader (l : Str) : Bool :=
  decide (5 ≤ l.length ∧ l.take 2 = ['[', dquote] ∧ l.drop (l.length - 2) = [dquote, ']'])

/-- The numeric-temperature regex test: one or more digits and
nothing else. -/
def matchesDigits (s : Str) : Bool :=
  !s.isEmpty && s.all (fun c => c.isDigit)

/-- The uppercase alphabet, the source set of the tr case conversion
in the C locale. -/
def upperChars : Str := "ABCDEFGHIJKLMNOPQRSTUVWXYZ".data

/-- The lowercase alphabet, the target set of the tr case
conversion. -/
def lowerAlpha : Str := "abcdefghijklmnopqrstuvwxyz".data

/-- The tr case conversion on one character: an uppercase letter is
replaced by the lowercase letter at the same position, every other
character is left unchanged. -/
def trLower (c : Char) : Char :=
  (List.lookup c (upperChars.zip lowerAlpha)).getD c

/-- The tr case conversion on a whole value. -/
def trLowerStr (s : Str) : Str := s.map trLower

/-- The tr deletion of quotes: delete every double-quote
character. -/
def trDelQuotes (s : Str) : Str := s.filter (fun c => !(c == dquote))

/-- The cut field-one splitter: the text before the first equals
sign; a line with no equals sign is passed through whole. -/
def cutF1 (l : Str) : Str := l.takeWhile (fun c => !(c == '='))

/-- The cut field-two-onward splitter: everything after the first
equals sign; a line with no equals sign is passed through whole. -/
def cutF2All (l : Str) : Str :=
  match l.dropWhile (fun c => !(c == '=')) with
  | [] => l
  | _ :: t => t

/-- The cut field-two splitter: the text between the first and second
equals sign; a line with no equals sign is passed through whole. -/
def cutF2Only (l : Str) : Str :=
  match l.dropWhile (fun c => !(c == '=')) with
  | [] => l
  | _ :: t => t.takeWhile (fun c => !(c == '='))

/-- One step of the shared read-loop shape of both scripts: on a line
whose trimmed form matches the section-header pattern, the previous
record is flushed (`e`, the embedding of `process_metric`) and the
accumulator is re-seeded from the header (`h`); any other line is fed
to the key/value handler (`k`). -/
def genStep {R : Type} (h : Str → R) (k : R → Str → R) (e : R → Option Str)
    (st : R × List Str) (line : Str) : R × List Str :=
  if isHeader (trim line) then (h (trim line), st.2 ++ (e st.1).toList)
  else (k st.1 line, st.2)

/-- The whole pass of a script over the lines of the input file: fold
the loop step over every line, then run `process_metric` one final time
on the record still in memory. -/
def runFrom {R : Type} (h : Str → R) (k : R → Str → R) (e : R → Option Str)
    (r : R) (lines : List Str) : List Str :=
  let st := lines.foldl (genStep h k e) (r, [])
  st.2 ++ (e st.1).toList

/-- The loop alone, without the final flush that follows it in the
scripts: the metrics emitted while reading the lines. -/
def runNoFinalFrom {R : Type} (h : Str → R) (k : R → Str → R) (e : R → Option Str)
    (r : R) (lines : List Str) : List Str :=
  (lines.foldl (genStep h k e) (r, [])).2

namespace MultiField

/-- The seven accumulator variables of the multi-field script, from
the current name through the current rotational flag.  The field typ
stands for the shell variable holding the type (that word is reserved
in Lean). -/
structure DiskRecord where
  name : Str
  id : Str
  temp : Str
  typ : Str
  device : Str
  transport : Str
  rotational : Str
deriving DecidableEq

/-- All variables empty, the state at script start and after each
section header. -/
def emptyRecord : DiskRecord := ⟨[], [], [], [], [], [], []⟩

/-- The configured metric prefix of the multi-field script. -/
def metricPrefix2 : Str := "unraid.disk".data

/-- The drive-kind derivation: a rotational value of 1 gives hdd, of
0 gives ssd, anything else leaves the variable empty. -/
def driveKind (rot : Str) : Str :=
  if rot = "1".data then "hdd".data
  else if rot = "0".data then "ssd".data
  else []

/-- The tags string built by `process_metric`: disk_name, the
lowercased disk_id, the lowercased disk_type, device, transport, and
the drive_kind tag appended only when the derived drive kind is
non-empty. -/
def tagsOf (r : DiskRecord) : Str :=
  let base := "disk_name:".data ++ r.name
    ++ ",disk_id:".data ++ trLowerStr r.id
    ++ ",disk_type:".data ++ trLowerStr r.typ
    ++ ",device:".data ++ r.device
    ++ ",transport:".data ++ r.transport
  if driveKind r.rotational = [] then base
  else base ++ ",drive_kind:".data ++ driveKind r.rotational

/-- The payload of the metric line: name, colon, temperature, the
gauge marker, the hash sign and the tags, sent with echo -n (so with
no trailing newline). -/
def metricOf (r : DiskRecord) : Str :=
  metricPrefix2 ++ ".temperature:".data ++ r.temp ++ "|g|#".data ++ tagsOf r

/-- The log line of the skip branch of `process_metric`. -/
def skipMessage (r : DiskRecord) : Str :=
  "Skipping disk \x27".data ++ r.name
    ++ "\x27 because temperature (\x27".data ++ r.temp
    ++ "\x27) is not a valid number.".data

/-- The log lines of the success branch of `process_metric`. -/
def sentMessages (r : DiskRecord) : List Str :=
  [ "Processing: Name=\x27".data ++ r.name
      ++ "\x27, ID=\x27".data ++ r.id
      ++ "\x27, Type=\x27".data ++ r.typ
      ++ "\x27, Temp=\x27".data ++ r.temp
      ++ "\x27, Device=\x27".data ++ r.device
      ++ "\x27, Rotational=\x27".data ++ r.rotational ++ "\x27".data,
    "Sent metric: ".data ++ metricOf r ]

/-- The `process_metric` function of the multi-field script: if name
and temperature are both non-empty and the temperature is all digits,
the metric payload is sent (first component) with two log lines;
a non-numeric temperature logs the skip reason; a missing name or
temperature falls off the outer `if` silently. -/
def process_metric (r : DiskRecord) : Option Str × List Str :=
  if r.name ≠ [] ∧ r.temp ≠ [] then
    if matchesDigits r.temp then (some (metricOf r), sentMessages r)
    else (none, [skipMessage r])
  else (none, [])

/-- The metric (if any) sent for a flushed record. -/
def emit (r : DiskRecord) : Option Str := (process_metric r).1

/-- The case statement on the extracted key: store the value under a
recognized key, ignore every other key. -/
def applyKV (r : DiskRecord) (key value : Str) : DiskRecord :=
  if key = "name".data then { r with name := value }
  else if key = "id".data then { r with id := value }
  else if key = "temp".data then { r with temp := value }
  else if key = "type".data then { r with typ := value }
  else if key = "device".data then { r with device := value }
  else if key = "transport".data then { r with transport := value }
  else if key = "rotational".data then { r with rotational := value }
  else r

/-- The non-header branch of the loop body: trim the line, split it
at the first equals sign with the cut splitters, delete the double
quotes of the value, and store it. -/
def kvStep (r : DiskRecord) (line : Str) : DiskRecord :=
  applyKV r (cutF1 (trim line)) (trDelQuotes (cutF2All (trim line)))

/-- One iteration of the read-loop of the multi-field script: a header
flushes the previous record and resets every variable to empty. -/
def stepLine (st : DiskRecord × List Str) (line : Str) : DiskRecord × List Str :=
  genStep (fun _ => emptyRecord) kvStep emit st line

/-- The whole pass of the multi-field script over the input lines:
the metrics sent, in order. -/
def run (lines : List Str) : List Str :=
  runFrom (fun _ => emptyRecord) kvStep emit emptyRecord lines

/-- The loop of the multi-field script without the final flush. -/
def runNoFinal (lines : List Str) : List Str :=
  runNoFinalFrom (fun _ => emptyRecord) kvStep emit emptyRecord lines

/-- The process boundary: `exit 1` with no metrics when the input file
is missing, otherwise a full pass and the final `log` commands, whose
exit status is the process exit code `0`. -/
def main_run (file : Option (List Str)) : Nat × List Str :=
  match file with
  | none => (1, [])
  | some lines => (0, run lines)

/-- The record accumulated for one section: the key/value steps of the
body folded over the empty record the header reset left behind. -/
def recordOfSection (s : Str × List Str) : DiskRecord :=
  s.2.foldl kvStep emptyRecord

/-- A section whose record passes validation: non-empty name and
all-digit temperature. -/
@[reducible] def validSection (s : Str × List Str) : Prop :=
  (recordOfSection s).name ≠ [] ∧ matchesDigits (recordOfSection s).temp = true

/-- The six tag values of the payload, in tag order, exactly as
interpolated into `tags` by `process_metric`: raw name, lowercased id,
lowercased type, raw device, raw transport, and the derived drive kind
when present. -/
def tagValues (r : DiskRecord) : List Str :=
  [r.name, trLowerStr r.id, trLowerStr r.typ, r.device, r.transport]
    ++ (if driveKind r.rotational = [] then [] else [driveKind r.rotational])

end MultiField

namespace SlotVariant

/-- The four accumulator variables of the slot-based script: slot,
id, temperature and type. -/
structure SlotRecord where
  slot : Str
  id : Str
  temp : Str
  typ : Str
deriving DecidableEq

/-- All variables empty, the state at script start. -/
def emptyRecord : SlotRecord := ⟨[], [], [], []⟩

/-- The configured metric prefix of the slot-based script. -/
def metricPrefix1 : Str := "unraid.disk".data

/-- The `tags` string of the slot-based script: raw slot, raw id,
lowercased type. -/
def tagsOf (r : SlotRecord) : Str :=
  "disk_slot:".data ++ r.slot
    ++ ",disk_id:".data ++ r.id
    ++ ",disk_type:".data ++ trLowerStr r.typ

/-- The payload of the metric line of the slot-based script. -/
def metricOf (r : SlotRecord) : Str :=
  metricPrefix1 ++ ".temperature:".data ++ r.temp ++ "|g|#".data ++ tagsOf r

/-- The `process_metric` function of the slot-based script, reduced to
the metric it sends: slot and temperature non-empty, temperature all
digits. -/
def emit (r : SlotRecord) : Option Str :=
  if r.slot ≠ [] ∧ r.temp ≠ [] then
    if matchesDigits r.temp then some (metricOf r) else none
  else none

/-- The tr deletion of brackets and quotes applied to the trimmed
header line to obtain the new slot value. -/
def headerSlot (clean : Str) : Str :=
  clean.filter (fun c => !(c == '[') && !(c == ']') && !(c == dquote))

/-- The elif chain of the slot-based loop body: glob prefix tests for
the id, temp and type keys on the trimmed line, value from the cut
field-two splitter with quotes deleted; any other line is ignored. -/
def kvStep (r : SlotRecord) (line : Str) : SlotRecord :=
  if "id=".data.isPrefixOf (trim line) then
    { r with id := trDelQuotes (cutF2Only (trim line)) }
  else if "temp=".data.isPrefixOf (trim line) then
    { r with temp := trDelQuotes (cutF2Only (trim line)) }
  else if "type=".data.isPrefixOf (trim line) then
    { r with typ := trDelQuotes (cutF2Only (trim line)) }
  else r

/-- One iteration of the read-loop of the slot-based script: a header
flushes the previous record, seeds the slot from the header via the tr
deletion of brackets and quotes, and clears the other variables. -/
def stepLine (st : SlotRecord × List Str) (line : Str) : SlotRecord × List Str :=
  genStep (fun clean => ⟨headerSlot clean, [], [], []⟩) kvStep emit st line

/-- The whole pass of the slot-based script over the input lines. -/
def run (lines : List Str) : List Str :=
  runFrom (fun clean => ⟨headerSlot clean, [], [], []⟩) kvStep emit emptyRecord lines

/-- The loop of the slot-based script without the final flush. -/
def runNoFinal (lines : List Str) : List Str :=
  runNoFinalFrom (fun clean => ⟨headerSlot clean, [], [], []⟩) kvStep emit emptyRecord lines

/-- The process boundary of the slot-based script. -/
def main_run (file : Option (List Str)) : Nat × List Str :=
  match file with
  | none => (1, [])
  | some lines => (0, run lines)

/-- The record accumulated for one section: the slot seeded from the
trimmed header, then the key/value steps of the body. -/
def recordOfSection (s : Str × List Str) : SlotRecord :=
  s.2.foldl kvStep ⟨headerSlot (trim s.1), [], [], []⟩

/-- A section whose record passes validation: non-empty slot and
all-digit temperature. -/
@[reducible] def validSection (s : Str × List Str) : Prop :=
  (recordOfSection s).slot ≠ [] ∧ matchesDigits (recordOfSection s).temp = true

end SlotVariant

/-- A well-formed section of the input file: a first line whose
trimmed form matches the header pattern, followed by body lines none of
which matches it. -/
@[reducible] def wfSection (s : Str × List Str) : Prop :=
  isHeader (trim s.1) = true ∧ ∀ l ∈ s.2, isHeader (trim l) = false

/-- The lines of an input file made of the given sections in order. -/
def fileOf : List (Str × List Str) → List Str
  | [] => []
  | s :: rest => (s.1 :: s.2) ++ fileOf rest

/-- The record a loop with header seed `h` and key/value step `k`
accumulates while reading one section. -/
def recOfSec {R : Type} (h : Str → R) (k : R → Str → R) (s : Str × List Str) : R :=
  s.2.foldl k (h (trim s.1))

/-- Reference recursion for the loop over a section list: each section
start flushes the record pending so far, and the record of the last
section is flushed at end of input. -/
def specRun {R : Type} (h : Str → R) (k : R → Str → R) (e : R → Option Str) :
    R → List (Str × List Str) → List Str
  | r, [] => (e r).toList
  | r, s :: rest => (e r).toList ++ specRun h k e (recOfSec h k s) rest

/-- The sanitization property the spec claims of a tag value: no
uppercase letter, no comma, no colon. -/
def sanitizedValue (v : Str) : Bool :=
  v.all (fun c => !(decide (c ∈ upperChars)) && !(c == ',') && !(c == ':'))

/-- Modelled from the spec: the exact wire payload claimed in the
output-protocol section — prefix dot temperature, colon, the integer
value, the gauge marker, then the disk_name, disk_id, disk_type,
device and transport tags and the optional drive_kind tag. -/
def claimedPayload (temp n i t d tp : Str) (dk : Option Str) : Str :=
  "unraid.disk.temperature:".data ++ temp ++ "|g|#".data
    ++ ("disk_name:".data ++ n ++ ",disk_id:".data ++ i
        ++ ",disk_type:".data ++ t ++ ",device:".data ++ d
        ++ ",transport:".data ++ tp
        ++ (match dk with
            | none => []
            | some kv => ",drive_kind:".data ++ kv))

/-- A payload matches the claimed wire format: it decomposes as
`claimedPayload` for some all-digit temperature, some tag values, and
a drive-kind tag that is absent or `hdd` or `ssd`. -/
def matchesClaimedFormat (p : Str) : Prop :=
  ∃ temp n i t d tp dk, matchesDigits temp = true ∧
    (dk = none ∨ dk = some "hdd".data ∨ dk = some "ssd".data) ∧
    p = claimedPayload temp n i t d tp dk

/-- Whether `pat` occurs contiguously inside a string. -/
def hasSubstring (pat : Str) : Str → Bool
  | [] => pat.isEmpty
  | c :: t => pat.isPrefixOf (c :: t) || hasSubstring pat t

/-- Modelled from the spec: strip enclosing quote characters from the
value — remove a leading and a trailing double quote when both are
present, leaving interior characters untouched. -/
def stripEnclosingQuotes (s : Str) : Str :=
  if 2 ≤ s.length ∧ s.head? = some dquote ∧ s.getLast? = some dquote
  then (s.drop 1).dropLast else s

namespace MultiField

/-- The payload of the multi-field script without the optional
drive-kind tag. -/
def basePayload (r : DiskRecord) : Str :=
  metricPrefix2 ++ ".temperature:".data ++ r.temp ++ "|g|#".data
    ++ ("disk_name:".data ++ r.name
        ++ ",disk_id:".data ++ trLowerStr r.id
        ++ ",disk_type:".data ++ trLowerStr r.typ
        ++ ",device:".data ++ r.device
        ++ ",transport:".data ++ r.transport)

/-- The optional drive-kind tag text as a function of the rotational
flag: `,drive_kind:hdd` for `1`, `,drive_kind:ssd` for `0`, nothing
otherwise. -/
def dkSuffix (rot : Str) : Str :=
  if rot = "1".data then ",drive_kind:hdd".data
  else if rot = "0".data then ",drive_kind:ssd".data
  else []

end MultiField

/-- Claim C2 as stated: in every emitted metric, every tag value is
entirely lowercase and contains no comma and no colon, for any input
field values. -/
def claim2Statement : Prop :=
  ∀ r : MultiField.DiskRecord, (MultiField.emit r).isSome = true →
    ∀ v ∈ MultiField.tagValues r, sanitizedValue v = true

/-- Claim C3 as stated: a metric is sent iff name, temperature are
non-empty and the temperature is all digits, and every discarded
record produces a logged reason. -/
def claim3Statement : Prop :=
  ∀ r : MultiField.DiskRecord,
    ((MultiField.process_metric r).1.isSome = true ↔
      (r.name ≠ [] ∧ r.temp ≠ [] ∧ matchesDigits r.temp = true))
    ∧ ((MultiField.process_metric r).1 = none → (MultiField.process_metric r).2 ≠ [])

/-- Claim C4 as stated: every payload emitted by either script matches
the claimed wire format. -/
def claim4Statement : Prop :=
  ∀ (lines : List Str) (p : Str),
    (p ∈ MultiField.run lines ∨ p ∈ SlotVariant.run lines) → matchesClaimedFormat p

/-- Claim C7 as stated: an input containing key/value lines but no
section-header line yields zero metrics, in both scripts. -/
def claim7Statement : Prop :=
  ∀ lines : List Str, (∀ l ∈ lines, isHeader (trim l) = false) →
    MultiField.run lines = [] ∧ SlotVariant.run lines = []

/-- Claim C9 as stated: for a recognized key, the recorded value is
the raw value with only its enclosing quotes stripped (interior quotes
preserved); stated on `name=` lines that trimming leaves unchanged. -/
def claim9Statement : Prop :=
  ∀ v : Str, trim ("name=".data ++ v) = "name=".data ++ v →
    (MultiField.kvStep MultiField.emptyRecord ("name=".data ++ v)).name
      = stripEnclosingQuotes v

section LoopLemmas

variable {R : Type} (h : Str → R) (k : R → Str → R) (e : R → Option Str)

/-- The metric list in the loop state only ever grows by appending:
folding from `(r, out)` gives the same record as folding from `(r, [])`
and the same metrics appended after `out`. -/
theorem foldl_genStep_out (lines : List Str) : ∀ (r : R) (out : List Str),
    lines.foldl (genStep h k e) (r, out)
      = ((lines.foldl (genStep h k e) (r, [])).1,
         out ++ (lines.foldl (genStep h k e) (r, [])).2) := by
  induction lines with
  | nil => intro r out; simp
  | cons l ls ih =>
    intro r out
    simp only [List.foldl_cons]
    by_cases hh : isHeader (trim l) = true
    · rw [show genStep h k e (r, out) l = (h (trim l), out ++ (e r).toList) from by
          simp [genStep, hh],
        show genStep h k e (r, []) l = (h (trim l), (e r).toList) from by
          simp [genStep, hh],
        ih (h (trim l)) (out ++ (e r).toList), ih (h (trim l)) ((e r).toList)]
      simp [List.append_assoc]
    · rw [show genStep h k e (r, out) l = (k r l, out) from by simp [genStep, hh],
        show genStep h k e (r, []) l = (k r l, []) from by simp [genStep, hh]]
      exact ih (k r l) out

/-- Over body lines that are not headers, the loop only applies the
key/value step; no metric is flushed. -/
theorem foldl_genStep_body (body : List Str) : ∀ (r : R) (out : List Str),
    (∀ l ∈ body, isHeader (trim l) = false) →
    body.foldl (genStep h k e) (r, out) = (body.foldl k r, out) := by
  induction body with
  | nil => intro r out _; rfl
  | cons l ls ih =>
    intro r out hb
    have hl : isHeader (trim l) = false := hb l (List.mem_cons_self l ls)
    simp only [List.foldl_cons]
    rw [show genStep h k e (r, out) l = (k r l, out) from by simp [genStep, hl]]
    exact ih (k r l) out (fun x hx => hb x (List.mem_cons_of_mem l hx))

/-- A full pass over a file made of well-formed sections follows the
reference recursion `specRun`. -/
theorem runFrom_fileOf (secs : List (Str × List Str)) : ∀ (r : R),
    (∀ s ∈ secs, wfSection s) →
    runFrom h k e r (fileOf secs) = specRun h k e r secs := by
  induction secs with
  | nil => intro r _; simp [runFrom, fileOf, specRun]
  | cons s rest ih =>
    intro r hwf
    obtain ⟨hhdr, hbody⟩ := hwf s (List.mem_cons_self s rest)
    have hrest : ∀ t ∈ rest, wfSection t := fun t ht => hwf t (List.mem_cons_of_mem s ht)
    show runFrom h k e r ((s.1 :: s.2) ++ fileOf rest) = _
    unfold runFrom
    simp only [List.cons_append, List.foldl_cons, List.foldl_append]
    rw [show genStep h k e (r, []) s.1 = (h (trim s.1), (e r).toList) from by
        simp [genStep, hhdr],
      foldl_genStep_body h k e s.2 (h (trim s.1)) ((e r).toList) hbody,
      foldl_genStep_out h k e (fileOf rest) (s.2.foldl k (h (trim s.1))) ((e r).toList)]
    rw [show specRun h k e r (s :: rest) = (e r).toList ++ specRun h k e (recOfSec h k s) rest
        from rfl]
    rw [← ih (recOfSec h k s) hrest]
    simp [runFrom, recOfSec, List.append_assoc]

/-- Every metric a pass emits is the `process_metric` output of some
record. -/
theorem mem_runFrom (lines : List Str) : ∀ (r : R) (p : Str),
    p ∈ runFrom h k e r lines → ∃ r', e r' = some p := by
  induction lines with
  | nil =>
    intro r p hp
    simp only [runFrom, List.foldl_nil, List.nil_append] at hp
    cases he : e r with
    | none => rw [he] at hp; simp at hp
    | some a => rw [he] at hp; simp at hp; exact ⟨r, by rw [he, hp]⟩
  | cons l ls ih =>
    intro r p hp
    unfold runFrom at hp
    simp only [List.foldl_cons] at hp
    by_cases hh : isHeader (trim l) = true
    · rw [show genStep h k e (r, []) l = (h (trim l), (e r).toList) from by
          simp [genStep, hh],
        foldl_genStep_out h k e ls (h (trim l)) ((e r).toList)] at hp
      simp only [List.append_assoc] at hp
      rcases List.mem_append.mp hp with hp1 | hp2
      · cases he : e r with
        | none => rw [he] at hp1; simp at hp1
        | some a => rw [he] at hp1; simp at hp1; exact ⟨r, by rw [he, hp1]⟩
      · exact ih (h (trim l)) p (by unfold runFrom; exact hp2)
    · rw [show genStep h k e (r, []) l = (k r l, []) from by simp [genStep, hh]] at hp
      exact ih (k r l) p (by unfold runFrom; exact hp)

/-- Appending one header line to the input makes the in-loop flushes
alone produce exactly what the full pass (with its final flush)
produces. -/
theorem runFrom_eq_append_header (lines : List Str) (hd : Str) (r : R)
    (hh : isHeader (trim hd) = true) :
    runFrom h k e r lines = runNoFinalFrom h k e r (lines ++ [hd]) := by
  unfold runFrom runNoFinalFrom
  rw [List.foldl_append]
  simp only [List.foldl_cons, List.foldl_nil]
  rw [show genStep h k e (lines.foldl (genStep h k e) (r, [])) hd
      = (h (trim hd),
         (lines.foldl (genStep h k e) (r, [])).2
           ++ (e (lines.foldl (genStep h k e) (r, [])).1).toList) from by
      simp [genStep, hh]]

end LoopLemmas

section LookupLemmas

variable {α β : Type} [BEq α] [LawfulBEq α]

/-- A successful association lookup returns a pair of the list. -/
theorem lookup_mem_pairs (a : α) (b : β) :
    ∀ ps : List (α × β), List.lookup a ps = some b → (a, b) ∈ ps := by
  intro ps
  induction ps with
  | nil => intro hp; simp [List.lookup] at hp
  | cons xy ps ih =>
    intro hp
    obtain ⟨x, y⟩ := xy
    by_cases hax : (a == x) = true
    · simp only [List.lookup, hax] at hp
      have hxy : y = b := by exact Option.some.inj hp
      have hx : a = x := eq_of_beq hax
      rw [hx, ← hxy]
      exact List.mem_cons_self _ _
    · simp only [List.lookup, Bool.not_eq_true] at hp
      rw [Bool.not_eq_true] at hax
      rw [hax] at hp
      exact List.mem_cons_of_mem _ (ih hp)

/-- A key among the first components of an association list is found
by lookup. -/
theorem lookup_isSome_of_mem_keys (a : α) :
    ∀ ps : List (α × β), a ∈ ps.map Prod.fst → (List.lookup a ps).isSome = true := by
  intro ps
  induction ps with
  | nil => intro hp; simp at hp
  | cons xy ps ih =>
    intro hp
    obtain ⟨x, y⟩ := xy
    by_cases hax : (a == x) = true
    · simp [List.lookup, hax]
    · rw [Bool.not_eq_true] at hax
      simp only [List.lookup, hax]
      apply ih
      simp only [List.map_cons, List.mem_cons] at hp
      rcases hp with hp | hp
      · exact absurd (beq_iff_eq.mpr hp) (by simp [hax])
      · exact hp

/-- A key absent from the first components makes lookup fail. -/
theorem lookup_eq_none_of_not_mem_keys (a : α) (ps : List (α × β))
    (ha : a ∉ ps.map Prod.fst) : List.lookup a ps = none := by
  cases hq : List.lookup a ps with
  | none => rfl
  | some b =>
    exact absurd (List.mem_map_of_mem Prod.fst (lookup_mem_pairs a b ps hq)) ha

/-- With distinct keys, lookup finds exactly the stored pair. -/
theorem lookup_eq_some_of_mem_nodup (a : α) (b : β) :
    ∀ ps : List (α × β), (ps.map Prod.fst).Nodup → (a, b) ∈ ps →
      List.lookup a ps = some b := by
  intro ps
  induction ps with
  | nil => intro _ hm; simp at hm
  | cons xy ps ih =>
    intro hnd hm
    obtain ⟨x, y⟩ := xy
    simp only [List.map_cons, List.nodup_cons] at hnd
    rcases List.mem_cons.mp hm with hm | hm
    · have hx : a = x := congrArg Prod.fst hm
      have hy : b = y := congrArg Prod.snd hm
      simp [List.lookup, hx, hy]
    · have hax : (a == x) = false := by
        rw [beq_eq_false_iff_ne]
        intro hax
        exact hnd.1 (hax ▸ List.mem_map_of_mem Prod.fst hm)
      simp only [List.lookup, hax]
      exact ih hnd.2 hm

end LookupLemmas

/-- The first components of the zipped alphabet tables are exactly the
uppercase letters. -/
theorem zip_alpha_keys : (upperChars.zip lowerAlpha).map Prod.fst = upperChars := by
  decide

/-- The tr case conversion never produces an uppercase letter. -/
theorem trLower_not_upper (c : Char) : trLower c ∉ upperChars := by
  unfold trLower
  cases hq : List.lookup c (upperChars.zip lowerAlpha) with
  | none =>
    simp only [Option.getD_none]
    intro hmem
    have := lookup_isSome_of_mem_keys c (upperChars.zip lowerAlpha)
      (by rw [zip_alpha_keys]; exact hmem)
    rw [hq] at this
    simp at this
  | some d =>
    simp only [Option.getD_some]
    have hz := lookup_mem_pairs c d _ hq
    have hd : d ∈ lowerAlpha := (List.of_mem_zip hz).2
    have hall : ∀ x ∈ lowerAlpha, x ∉ upperChars := by decide
    exact hall d hd

/-- The tr case conversion leaves a character that is not an
uppercase letter unchanged. -/
theorem trLower_eq_self (c : Char) (hc : c ∉ upperChars) : trLower c = c := by
  unfold trLower
  rw [lookup_eq_none_of_not_mem_keys c _ (by rw [zip_alpha_keys]; exact hc)]
  rfl

/-- The tr case conversion sends each character either to itself or
into the lowercase alphabet. -/
theorem trLower_cases (c : Char) : trLower c = c ∨ trLower c ∈ lowerAlpha := by
  unfold trLower
  cases hq : List.lookup c (upperChars.zip lowerAlpha) with
  | none => exact Or.inl rfl
  | some d =>
    refine Or.inr ?_
    simp only [Option.getD_some]
    exact (List.of_mem_zip (lookup_mem_pairs c d _ hq)).2

/-- An all-digit temperature is in particular non-empty. -/
theorem matchesDigits_ne_nil {t : Str} (ht : matchesDigits t = true) : t ≠ [] := by
  intro hnil
  rw [hnil] at ht
  exact absurd ht (by decide)

/-- What a successful `process_metric` of the multi-field script
emits, and the validation facts it implies. -/
theorem emit_eq_some {r : MultiField.DiskRecord} {p : Str}
    (hp : MultiField.emit r = some p) :
    p = MultiField.metricOf r ∧ r.name ≠ [] ∧ matchesDigits r.temp = true := by
  unfold MultiField.emit MultiField.process_metric at hp
  split_ifs at hp with h1 h2
  simp only [Option.some.injEq] at hp
  exact ⟨hp.symm, h1.1, h2⟩

/-- A record with non-empty name and all-digit temperature is emitted
by the multi-field script. -/
theorem emit_of_valid {r : MultiField.DiskRecord}
    (hn : r.name ≠ []) (hd : matchesDigits r.temp = true) :
    MultiField.emit r = some (MultiField.metricOf r) := by
  unfold MultiField.emit MultiField.process_metric
  rw [if_pos ⟨hn, matchesDigits_ne_nil hd⟩, if_pos hd]

/-- What a successful `process_metric` of the slot-based script
emits. -/
theorem emitS_eq_some {r : SlotVariant.SlotRecord} {p : Str}
    (hp : SlotVariant.emit r = some p) :
    p = SlotVariant.metricOf r ∧ r.slot ≠ [] ∧ matchesDigits r.temp = true := by
  unfold SlotVariant.emit at hp
  split_ifs at hp with h1 h2
  simp only [Option.some.injEq] at hp
  exact ⟨hp.symm, h1.1, h2⟩

/-- A record with non-empty slot and all-digit temperature is emitted
by the slot-based script. -/
theorem emitS_of_valid {r : SlotVariant.SlotRecord}
    (hn : r.slot ≠ []) (hd : matchesDigits r.temp = true) :
    SlotVariant.emit r = some (SlotVariant.metricOf r) := by
  unfold SlotVariant.emit
  rw [if_pos ⟨hn, matchesDigits_ne_nil hd⟩, if_pos hd]

/-- The `tags` string splits into the fixed base followed by the
drive-kind suffix determined by the rotational flag. -/
theorem tagsOf_eq (r : MultiField.DiskRecord) :
    MultiField.tagsOf r =
      ("disk_name:".data ++ r.name
        ++ ",disk_id:".data ++ trLowerStr r.id
        ++ ",disk_type:".data ++ trLowerStr r.typ
        ++ ",device:".data ++ r.device
        ++ ",transport:".data ++ r.transport) ++ MultiField.dkSuffix r.rotational := by
  unfold MultiField.tagsOf MultiField.dkSuffix MultiField.driveKind
  by_cases h1 : r.rotational = "1".data
  · simp [h1, List.append_assoc]
  · by_cases h0 : r.rotational = "0".data
    · simp [h0, h1, List.append_assoc]
    · simp [h0, h1]

/-- The emitted payload splits into the fixed base payload followed by
the drive-kind suffix. -/
theorem metricOf_eq_base_dk (r : MultiField.DiskRecord) :
    MultiField.metricOf r = MultiField.basePayload r ++ MultiField.dkSuffix r.rotational := by
  unfold MultiField.metricOf MultiField.basePayload
  rw [tagsOf_eq]
  simp [List.append_assoc]

/-- A list is a prefix of itself extended by anything. -/
theorem isPrefixOf_append_self (a b : Str) : List.isPrefixOf a (a ++ b) = true := by
  induction a with
  | nil => simp [List.isPrefixOf]
  | cons c t ih => simp [List.isPrefixOf, ih]

/-- A pattern is found at the front of a string that starts with it. -/
theorem hasSubstring_of_starts (pat b : Str) : hasSubstring pat (pat ++ b) = true := by
  cases pat with
  | nil =>
    cases b with
    | nil => rfl
    | cons c t => simp [hasSubstring, List.isPrefixOf]
  | cons c t =>
    show hasSubstring (c :: t) (c :: (t ++ b)) = true
    simp only [hasSubstring, Bool.or_eq_true]
    exact Or.inl (isPrefixOf_append_self (c :: t) b)

/-- A pattern occurring anywhere inside a string is found. -/
theorem hasSubstring_append (pat a b : Str) : hasSubstring pat (a ++ pat ++ b) = true := by
  induction a with
  | nil => simpa using hasSubstring_of_starts pat b
  | cons c t ih =>
    show hasSubstring pat (c :: (t ++ pat ++ b)) = true
    simp only [hasSubstring, Bool.or_eq_true]
    exact Or.inr ih

/-- Every payload of the claimed wire format contains the text
`disk_name:`. -/
theorem claimed_has_diskname {p : Str} (hp : matchesClaimedFormat p) :
    hasSubstring "disk_name:".data p = true := by
  obtain ⟨temp, n, i, t, d, tp, dk, _, _, hpe⟩ := hp
  subst hpe
  rcases dk with _ | kv
  · simpa [claimedPayload, List.append_assoc] using
      hasSubstring_append "disk_name:".data
        ("unraid.disk.temperature:".data ++ temp ++ "|g|#".data)
        (n ++ ",disk_id:".data ++ i ++ ",disk_type:".data ++ t ++ ",device:".data ++ d
          ++ ",transport:".data ++ tp)
  · simpa [claimedPayload, List.append_assoc] using
      hasSubstring_append "disk_name:".data
        ("unraid.disk.temperature:".data ++ temp ++ "|g|#".data)
        (n ++ ",disk_id:".data ++ i ++ ",disk_type:".data ++ t ++ ",device:".data ++ d
          ++ ",transport:".data ++ tp ++ (",drive_kind:".data ++ kv))

/-- Unfolding of the tag-value sanitization check. -/
theorem sanitizedValue_iff (v : Str) :
    sanitizedValue v = true ↔ ∀ c ∈ v, c ∉ upperChars ∧ c ≠ ',' ∧ c ≠ ':' := by
  simp [sanitizedValue, List.all_eq_true, Bool.and_eq_true, Bool.not_eq_true',
    beq_eq_false_iff_ne, decide_eq_false_iff_not, and_assoc]

/-- The tr case conversion preserves comma/colon-freedom and removes
uppercase letters. -/
theorem trLower_sanitized {c : Char} (hc : c ≠ ',' ∧ c ≠ ':') :
    trLower c ∉ upperChars ∧ trLower c ≠ ',' ∧ trLower c ≠ ':' := by
  refine ⟨trLower_not_upper c, ?_⟩
  rcases trLower_cases c with h | h
  · rw [h]; exact hc
  · have hall : ∀ x ∈ lowerAlpha, x ≠ ',' ∧ x ≠ ':' := by decide
    exact hall _ h

/-- Claim C1 (confirmed): after the last line of any input, the
in-progress record is processed exactly as if a section header had
followed it (in both scripts the full pass equals the loop-only pass
over the input extended by one header line); in particular a
single-section file with a valid identifier and an all-digit
temperature and no trailing header yields exactly one metric. -/
theorem c1_final_flush :
    (∀ (lines : List Str) (hd : Str), isHeader (trim hd) = true →
        MultiField.run lines = MultiField.runNoFinal (lines ++ [hd]))
    ∧ (∀ (lines : List Str) (hd : Str), isHeader (trim hd) = true →
        SlotVariant.run lines = SlotVariant.runNoFinal (lines ++ [hd]))
    ∧ MultiField.run ["[\"disk1\"]".data, "name=disk1".data, "temp=38".data]
        = ["unraid.disk.temperature:38|g|#disk_name:disk1,disk_id:,disk_type:,device:,transport:".data]
    ∧ SlotVariant.run ["[\"disk1\"]".data, "id=WD1".data, "temp=38".data, "type=Data".data]
        = ["unraid.disk.temperature:38|g|#disk_slot:disk1,disk_id:WD1,disk_type:data".data] := by
  refine ⟨?_, ?_, by decide, by decide⟩
  · intro lines hd hh
    exact runFrom_eq_append_header _ _ _ lines hd _ hh
  · intro lines hd hh
    exact runFrom_eq_append_header _ _ _ lines hd _ hh

/-- Witness for C1: the flush equation at a concrete headerless input
and a concrete trailing header. -/
theorem c1_witness :
    MultiField.run ["name=d".data, "temp=5".data]
      = MultiField.runNoFinal (["name=d".data, "temp=5".data] ++ ["[\"x\"]".data]) :=
  c1_final_flush.1 ["name=d".data, "temp=5".data] "[\"x\"]".data (by decide)

/-- Claim C8 (confirmed): a missing input file gives exit code 1 and
zero metrics; any existing input file gives a completed pass with exit
code 0, whatever the number of valid devices. -/
theorem c8_exit_codes :
    (MultiField.main_run none = (1, [])
      ∧ ∀ lines, (MultiField.main_run (some lines)).1 = 0)
    ∧ (SlotVariant.main_run none = (1, [])
      ∧ ∀ lines, (SlotVariant.main_run (some lines)).1 = 0) :=
  ⟨⟨rfl, fun _ => rfl⟩, ⟨rfl, fun _ => rfl⟩⟩

/-- Claim C3 is false as stated: the record with empty name and
temperature 38 is discarded (no metric), yet the multi-field script
logs nothing for it, so the discard has no logged reason. -/
theorem c3_counterexample : ¬ claim3Statement := by
  intro hcl
  have h := (hcl ⟨[], [], "38".data, [], [], [], []⟩).2
  exact (h (by decide)) (by decide)

/-- Claim C3 (amended): a metric is sent iff the name is non-empty and
the temperature is all digits (hence non-empty); a record with name
and temperature present but a non-numeric temperature is discarded
with the skip log line; a record missing name or temperature is
discarded silently; in every case a section header afterwards resets
the accumulator, so later sections are unaffected. -/
theorem c3_validation (r : MultiField.DiskRecord) :
    ((MultiField.process_metric r).1.isSome = true
      ↔ (r.name ≠ [] ∧ matchesDigits r.temp = true))
    ∧ (r.name ≠ [] → r.temp ≠ [] → matchesDigits r.temp = false →
        MultiField.process_metric r = (none, [MultiField.skipMessage r]))
    ∧ ((r.name = [] ∨ r.temp = []) → MultiField.process_metric r = (none, []))
    ∧ (∀ (out : List Str) (line : Str), isHeader (trim line) = true →
        MultiField.stepLine (r, out) line
          = (MultiField.emptyRecord, out ++ (MultiField.emit r).toList)) := by
  refine ⟨?_, ?_, ?_, ?_⟩
  · unfold MultiField.process_metric
    by_cases h1 : r.name ≠ [] ∧ r.temp ≠ []
    · rw [if_pos h1]
      by_cases h2 : matchesDigits r.temp = true
      · rw [if_pos h2]
        exact iff_of_true (by simp) ⟨h1.1, h2⟩
      · rw [if_neg h2]
        exact iff_of_false (by simp) (fun hc => h2 hc.2)
    · rw [if_neg h1]
      exact iff_of_false (by simp) (fun hc => h1 ⟨hc.1, matchesDigits_ne_nil hc.2⟩)
  · intro hn ht hd
    unfold MultiField.process_metric
    rw [if_pos ⟨hn, ht⟩, if_neg (by simp [hd])]
  · intro hor
    unfold MultiField.process_metric
    rw [if_neg (show ¬(r.name ≠ [] ∧ r.temp ≠ []) from fun hc => by
      rcases hor with h | h
      exacts [hc.1 h, hc.2 h])]
  · intro out line hl
    unfold MultiField.stepLine
    simp [genStep, hl]

/-- Witness for C3: the skip branch at a concrete record with name
present and non-numeric temperature. -/
theorem c3_witness :
    MultiField.process_metric ⟨"d".data, [], "3x".data, [], [], [], []⟩
      = (none, [MultiField.skipMessage ⟨"d".data, [], "3x".data, [], [], [], []⟩]) :=
  (c3_validation ⟨"d".data, [], "3x".data, [], [], [], []⟩).2.1
    (by decide) (by decide) (by decide)

/-- Claim C5 (confirmed): in every emitted metric of the multi-field
script the payload is the fixed base payload followed by the
drive-kind suffix, and that suffix is `,drive_kind:hdd` exactly for
rotational `1`, `,drive_kind:ssd` exactly for rotational `0`, and
absent exactly for every other rotational value. -/
theorem c5_drive_kind (r : MultiField.DiskRecord) (p : Str)
    (hp : MultiField.emit r = some p) :
    p = MultiField.basePayload r ++ MultiField.dkSuffix r.rotational
    ∧ (MultiField.dkSuffix r.rotational = ",drive_kind:hdd".data ↔ r.rotational = "1".data)
    ∧ (MultiField.dkSuffix r.rotational = ",drive_kind:ssd".data ↔ r.rotational = "0".data)
    ∧ (MultiField.dkSuffix r.rotational = []
        ↔ (r.rotational ≠ "1".data ∧ r.rotational ≠ "0".data)) := by
  obtain ⟨hpe, -, -⟩ := emit_eq_some hp
  refine ⟨by rw [hpe, metricOf_eq_base_dk], ?_, ?_, ?_⟩
  · unfold MultiField.dkSuffix
    by_cases h1 : r.rotational = "1".data
    · rw [if_pos h1]; exact iff_of_true rfl h1
    · rw [if_neg h1]
      by_cases h0 : r.rotational = "0".data
      · rw [if_pos h0]; exact iff_of_false (by decide) h1
      · rw [if_neg h0]; exact iff_of_false (by decide) h1
  · unfold MultiField.dkSuffix
    by_cases h1 : r.rotational = "1".data
    · rw [if_pos h1]
      exact iff_of_false (by decide) (fun h0 => by rw [h1] at h0; exact absurd h0 (by decide))
    · rw [if_neg h1]
      by_cases h0 : r.rotational = "0".data
      · rw [if_pos h0]; exact iff_of_true rfl h0
      · rw [if_neg h0]; exact iff_of_false (by decide) h0
  · unfold MultiField.dkSuffix
    by_cases h1 : r.rotational = "1".data
    · rw [if_pos h1]
      exact iff_of_false (by decide) (fun hc => hc.1 h1)
    · rw [if_neg h1]
      by_cases h0 : r.rotational = "0".data
      · rw [if_pos h0]
        exact iff_of_false (by decide) (fun hc => hc.2 h0)
      · rw [if_neg h0]
        exact iff_of_true rfl ⟨h1, h0⟩

/-- Witness for C5: the payload decomposition at a concrete rotational
hard-disk record. -/
theorem c5_witness :
    ("unraid.disk.temperature:38|g|#disk_name:sda,disk_id:,disk_type:,device:,transport:,drive_kind:hdd".data : Str)
      = MultiField.basePayload ⟨"sda".data, [], "38".data, [], [], [], "1".data⟩
        ++ MultiField.dkSuffix ("1".data) :=
  (c5_drive_kind ⟨"sda".data, [], "38".data, [], [], [], "1".data⟩ _ (by decide)).1

/-- Claim C2 is false as stated: a record whose name value mixes
uppercase letters, a comma and a colon is emitted, and its disk_name
tag value keeps all of them. -/
theorem c2_counterexample : ¬ claim2Statement := by
  intro hcl
  exact absurd
    (hcl ⟨"Disk,1:A".data, [], "38".data, [], [], [], []⟩ (by decide)
      "Disk,1:A".data (by decide))
    (by decide)

/-- Claim C2 (amended): only the `disk_id` and `disk_type` tag values
are lowercased (and the derived drive kind is a lowercase constant);
the `disk_name`, `device` and `transport` tag values are the raw field
values, and no comma or colon is removed anywhere, so all tag values
are sanitized only when the raw name, device and transport values
already are and the id and type values are comma- and colon-free. -/
theorem c2_sanitization (r : MultiField.DiskRecord) (p : Str)
    (_hp : MultiField.emit r = some p) :
    (∀ c ∈ trLowerStr r.id, c ∉ upperChars)
    ∧ (∀ c ∈ trLowerStr r.typ, c ∉ upperChars)
    ∧ (∀ c ∈ MultiField.driveKind r.rotational, c ∉ upperChars)
    ∧ (sanitizedValue r.name = true → sanitizedValue r.device = true →
        sanitizedValue r.transport = true →
        (∀ c ∈ r.id, c ≠ ',' ∧ c ≠ ':') →
        (∀ c ∈ r.typ, c ≠ ',' ∧ c ≠ ':') →
        ∀ v ∈ MultiField.tagValues r, sanitizedValue v = true) := by
  have hmap : ∀ (s : Str), ∀ c ∈ trLowerStr s, c ∉ upperChars := by
    intro s c hc
    obtain ⟨c', -, rfl⟩ := List.mem_map.mp hc
    exact trLower_not_upper c'
  have hdkcases : MultiField.driveKind r.rotational = "hdd".data
      ∨ MultiField.driveKind r.rotational = "ssd".data
      ∨ MultiField.driveKind r.rotational = [] := by
    unfold MultiField.driveKind
    split_ifs
    · exact Or.inl rfl
    · exact Or.inr (Or.inl rfl)
    · exact Or.inr (Or.inr rfl)
  have hdk : ∀ c ∈ MultiField.driveKind r.rotational, c ∉ upperChars := by
    rcases hdkcases with h | h | h <;> rw [h] <;> decide
  refine ⟨hmap r.id, hmap r.typ, hdk, ?_⟩
  intro h1 h2 h3 h4 h5 v hv
  have hsan : ∀ (s : Str), (∀ c ∈ s, c ≠ ',' ∧ c ≠ ':') →
      sanitizedValue (trLowerStr s) = true := by
    intro s hs
    rw [sanitizedValue_iff]
    intro c hc
    obtain ⟨c', hc', rfl⟩ := List.mem_map.mp hc
    exact trLower_sanitized (hs c' hc')
  have hdksan : sanitizedValue (MultiField.driveKind r.rotational) = true := by
    rcases hdkcases with h | h | h <;> rw [h] <;> decide
  unfold MultiField.tagValues at hv
  by_cases hdknil : MultiField.driveKind r.rotational = []
  · rw [if_pos hdknil] at hv
    simp only [List.append_nil, List.mem_cons, List.not_mem_nil, or_false] at hv
    rcases hv with rfl | rfl | rfl | rfl | rfl
    exacts [h1, hsan r.id h4, hsan r.typ h5, h2, h3]
  · rw [if_neg hdknil] at hv
    simp only [List.mem_append, List.mem_cons, List.not_mem_nil, or_false] at hv
    rcases hv with (rfl | rfl | rfl | rfl | rfl) | rfl
    exacts [h1, hsan r.id h4, hsan r.typ h5, h2, h3, hdksan]

/-- Witness for C2: the lowercased id tag value of a concrete clean
record is sanitized. -/
theorem c2_witness : sanitizedValue ("wd-1".data) = true :=
  (c2_sanitization
      ⟨"sda".data, "WD-1".data, "30".data, "Flash".data, "sda".data, "usb".data, "0".data⟩
      ("unraid.disk.temperature:30|g|#disk_name:sda,disk_id:wd-1,disk_type:flash,device:sda,transport:usb,drive_kind:ssd".data)
      (by decide)).2.2.2
    (by decide) (by decide) (by decide) (by decide) (by decide)
    ("wd-1".data) (by decide)

/-- Claim C9 is false as stated: a name value carrying an interior
double quote between ab and cd is recorded as abcd — the interior
double quote is deleted, not preserved. -/
theorem c9_counterexample : ¬ claim9Statement := by
  intro hcl
  exact absurd (hcl ("ab".data ++ [dquote] ++ "cd".data) (by decide)) (by decide)

/-- Claim C9 (amended): the recorded value is the raw value with
every double-quote character deleted by tr, interior ones included, so
a recorded value never contains a double quote. -/
theorem c9_quote_removal (v : Str)
    (hv : trim ("name=".data ++ v) = "name=".data ++ v) :
    (MultiField.kvStep MultiField.emptyRecord ("name=".data ++ v)).name = trDelQuotes v
    ∧ ∀ c ∈ (MultiField.kvStep MultiField.emptyRecord ("name=".data ++ v)).name,
        c ≠ dquote := by
  have hname : (MultiField.kvStep MultiField.emptyRecord ("name=".data ++ v)).name
      = trDelQuotes v := by
    unfold MultiField.kvStep
    rw [hv]
    have hk : cutF1 ("name=".data ++ v) = "name".data := by
      show List.takeWhile (fun c => !(c == '='))
          ('n' :: 'a' :: 'm' :: 'e' :: '=' :: v) = 'n' :: 'a' :: 'm' :: 'e' :: []
      rw [List.takeWhile_cons_of_pos (by decide), List.takeWhile_cons_of_pos (by decide),
        List.takeWhile_cons_of_pos (by decide), List.takeWhile_cons_of_pos (by decide),
        List.takeWhile_cons_of_neg (by decide)]
    have hdrop : List.dropWhile (fun c => !(c == '=')) ("name=".data ++ v) = '=' :: v := by
      show List.dropWhile (fun c => !(c == '='))
          ('n' :: 'a' :: 'm' :: 'e' :: '=' :: v) = '=' :: v
      rw [List.dropWhile_cons_of_pos (by decide), List.dropWhile_cons_of_pos (by decide),
        List.dropWhile_cons_of_pos (by decide), List.dropWhile_cons_of_pos (by decide),
        List.dropWhile_cons_of_neg (by decide)]
    have hval : cutF2All ("name=".data ++ v) = v := by
      unfold cutF2All
      rw [hdrop]
    rw [hk, hval]
    unfold MultiField.applyKV
    rw [if_pos rfl]
  refine ⟨hname, ?_⟩
  intro c hc
  rw [hname] at hc
  obtain ⟨-, hb⟩ := List.mem_filter.mp hc
  intro heq
  rw [heq] at hb
  simp at hb

/-- Witness for C9: the recorded name for a concrete value with an
interior quote. -/
theorem c9_witness :
    (MultiField.kvStep MultiField.emptyRecord
        ("name=".data ++ ("ab".data ++ [dquote] ++ "cd".data))).name
      = trDelQuotes ("ab".data ++ [dquote] ++ "cd".data) :=
  (c9_quote_removal ("ab".data ++ [dquote] ++ "cd".data) (by decide)).1

/-- Claim C7 is false as stated: a headerless input carrying a name
line and a numeric temperature line makes the multi-field script emit
one metric through its unconditional end-of-input flush. -/
theorem c7_counterexample : ¬ claim7Statement := by
  intro hcl
  have h := (hcl ["name=disk1".data, "temp=38".data] (by decide)).1
  exact absurd h (by decide)

/-- Claim C7 (amended): in the slot-based variant a headerless input
yields zero metrics (the identifier can only be seeded by a header);
in the multi-field variant the end-of-input flush still runs, so a
headerless input that supplies a name and a numeric temperature yields
one metric. -/
theorem c7_headerless (lines : List Str)
    (hl : ∀ l ∈ lines, isHeader (trim l) = false) :
    SlotVariant.run lines = []
    ∧ MultiField.run ["name=disk1".data, "temp=38".data]
        = ["unraid.disk.temperature:38|g|#disk_name:disk1,disk_id:,disk_type:,device:,transport:".data] := by
  refine ⟨?_, by decide⟩
  have hslot : ∀ (ls : List Str) (r : SlotVariant.SlotRecord),
      (ls.foldl SlotVariant.kvStep r).slot = r.slot := by
    intro ls
    induction ls with
    | nil => intro r; rfl
    | cons l t ih =>
      intro r
      rw [List.foldl_cons, ih]
      unfold SlotVariant.kvStep
      split_ifs <;> rfl
  have hemit : SlotVariant.emit
      (lines.foldl SlotVariant.kvStep SlotVariant.emptyRecord) = none := by
    unfold SlotVariant.emit
    rw [if_neg]
    intro hc
    exact hc.1 (by rw [hslot]; rfl)
  simp only [SlotVariant.run, runFrom]
  rw [foldl_genStep_body _ _ _ lines SlotVariant.emptyRecord [] hl]
  simp [hemit]

/-- Witness for C7: zero metrics from the slot-based script on a
concrete headerless input. -/
theorem c7_witness : SlotVariant.run ["id=x".data, "temp=38".data] = [] :=
  (c7_headerless ["id=x".data, "temp=38".data] (by decide)).1

/-- Claim C10 (confirmed): in the multi-field script every emitted
payload carries the disk_id tag whose value is the tr case conversion
of the raw id: uppercase letters are mapped to their lowercase
counterparts and every other character, hyphens included, is preserved
unchanged — no other substitution happens. -/
theorem c10_disk_id_lowercase (r : MultiField.DiskRecord) (p : Str)
    (hp : MultiField.emit r = some p) :
    (p = (MultiField.metricPrefix2 ++ ".temperature:".data ++ r.temp ++ "|g|#".data
          ++ "disk_name:".data ++ r.name ++ ",".data)
        ++ ("disk_id:".data ++ trLowerStr r.id)
        ++ (",disk_type:".data ++ trLowerStr r.typ ++ ",device:".data ++ r.device
          ++ ",transport:".data ++ r.transport ++ MultiField.dkSuffix r.rotational))
    ∧ trLowerStr r.id = r.id.map trLower
    ∧ (∀ c, c ∉ upperChars → trLower c = c)
    ∧ (∀ c lc, (c, lc) ∈ upperChars.zip lowerAlpha → trLower c = lc)
    ∧ trLower '-' = '-' := by
  obtain ⟨hpe, -, -⟩ := emit_eq_some hp
  refine ⟨?_, rfl, trLower_eq_self, ?_, by decide⟩
  · rw [hpe, metricOf_eq_base_dk]
    unfold MultiField.basePayload
    rw [show (",disk_id:".data : Str) = ",".data ++ "disk_id:".data from by decide]
    simp [List.append_assoc]
  · intro c lc hm
    unfold trLower
    rw [lookup_eq_some_of_mem_nodup c lc _ (by rw [zip_alpha_keys]; decide) hm]
    rfl

/-- Witness for C10: hyphens survive the id sanitization unchanged. -/
theorem c10_witness : trLower '-' = '-' :=
  (c10_disk_id_lowercase ⟨"sda".data, "WD-1".data, "30".data, [], [], [], []⟩
      ("unraid.disk.temperature:30|g|#disk_name:sda,disk_id:wd-1,disk_type:,device:,transport:".data)
      (by decide)).2.2.2.2

/-- Claim C4 is false as stated: the slot-based script emits a
payload whose tags start with disk_slot, which cannot match the
claimed format since it contains no disk_name text at all. -/
theorem c4_counterexample : ¬ claim4Statement := by
  intro hcl
  have h := hcl ["[\"disk1\"]".data, "id=x".data, "temp=38".data, "type=data".data]
    "unraid.disk.temperature:38|g|#disk_slot:disk1,disk_id:x,disk_type:data".data
    (Or.inr (by decide))
  exact absurd (claimed_has_diskname h) (by decide)

/-- Claim C4 (amended): every payload emitted by the multi-field
variant is exactly of the claimed wire format: prefix dot temperature,
colon, digits, the gauge marker, then the disk_name, disk_id,
disk_type, device and transport tags and an optional hdd or ssd
drive_kind tag, with no trailing newline. -/
theorem c4_payload_format (lines : List Str) (p : Str)
    (hp : p ∈ MultiField.run lines) :
    matchesClaimedFormat p := by
  obtain ⟨r, hr⟩ := mem_runFrom _ _ _ lines MultiField.emptyRecord p hp
  obtain ⟨hpe, -, hd⟩ := emit_eq_some hr
  by_cases h1 : r.rotational = "1".data
  · refine ⟨r.temp, r.name, trLowerStr r.id, trLowerStr r.typ, r.device, r.transport,
      some "hdd".data, hd, Or.inr (Or.inl rfl), ?_⟩
    rw [hpe, metricOf_eq_base_dk]
    unfold MultiField.basePayload MultiField.dkSuffix claimedPayload
    rw [if_pos h1,
      show ("unraid.disk.temperature:".data : Str)
        = MultiField.metricPrefix2 ++ ".temperature:".data from by decide,
      show (",drive_kind:hdd".data : Str) = ",drive_kind:".data ++ "hdd".data from by decide]
    simp [List.append_assoc]
  · by_cases h0 : r.rotational = "0".data
    · refine ⟨r.temp, r.name, trLowerStr r.id, trLowerStr r.typ, r.device, r.transport,
        some "ssd".data, hd, Or.inr (Or.inr rfl), ?_⟩
      rw [hpe, metricOf_eq_base_dk]
      unfold MultiField.basePayload MultiField.dkSuffix claimedPayload
      rw [if_neg h1, if_pos h0,
        show ("unraid.disk.temperature:".data : Str)
          = MultiField.metricPrefix2 ++ ".temperature:".data from by decide,
        show (",drive_kind:ssd".data : Str) = ",drive_kind:".data ++ "ssd".data from by decide]
      simp [List.append_assoc]
    · refine ⟨r.temp, r.name, trLowerStr r.id, trLowerStr r.typ, r.device, r.transport,
        none, hd, Or.inl rfl, ?_⟩
      rw [hpe, metricOf_eq_base_dk]
      unfold MultiField.basePayload MultiField.dkSuffix claimedPayload
      rw [if_neg h1, if_neg h0,
        show ("unraid.disk.temperature:".data : Str)
          = MultiField.metricPrefix2 ++ ".temperature:".data from by decide]
      simp [List.append_assoc]

/-- Witness for C4: a concrete emitted payload matches the claimed
format. -/
theorem c4_witness :
    matchesClaimedFormat
      ("unraid.disk.temperature:38|g|#disk_name:disk1,disk_id:,disk_type:,device:,transport:".data) :=
  c4_payload_format ["[\"disk1\"]".data, "name=disk1".data, "temp=38".data] _ (by decide)

/-- Over sections that all validate, the reference recursion of the
multi-field loop emits one metric per section, in order. -/
theorem specRun_valid_multi : ∀ (secs : List (Str × List Str)),
    (∀ s ∈ secs, MultiField.validSection s) → ∀ r,
    specRun (fun _ => MultiField.emptyRecord) MultiField.kvStep MultiField.emit r secs
      = (MultiField.emit r).toList
        ++ secs.map (fun s => MultiField.metricOf (MultiField.recordOfSection s)) := by
  intro secs
  induction secs with
  | nil => intro _ r; simp [specRun]
  | cons s rest ih =>
    intro hv r
    obtain ⟨hn, hd⟩ := hv s (List.mem_cons_self s rest)
    have hrest : ∀ t ∈ rest, MultiField.validSection t :=
      fun t ht => hv t (List.mem_cons_of_mem s ht)
    simp only [specRun]
    rw [ih hrest (recOfSec (fun _ => MultiField.emptyRecord) MultiField.kvStep s)]
    have hrec : recOfSec (fun _ => MultiField.emptyRecord) MultiField.kvStep s
        = MultiField.recordOfSection s := rfl
    rw [hrec, emit_of_valid hn hd]
    simp

/-- Over sections that all validate, the reference recursion of the
slot-based loop emits one metric per section, in order. -/
theorem specRun_valid_slot : ∀ (secs : List (Str × List Str)),
    (∀ s ∈ secs, SlotVariant.validSection s) → ∀ r,
    specRun (fun clean => (⟨SlotVariant.headerSlot clean, [], [], []⟩ : SlotVariant.SlotRecord))
        SlotVariant.kvStep SlotVariant.emit r secs
      = (SlotVariant.emit r).toList
        ++ secs.map (fun s => SlotVariant.metricOf (SlotVariant.recordOfSection s)) := by
  intro secs
  induction secs with
  | nil => intro _ r; simp [specRun]
  | cons s rest ih =>
    intro hv r
    obtain ⟨hn, hd⟩ := hv s (List.mem_cons_self s rest)
    have hrest : ∀ t ∈ rest, SlotVariant.validSection t :=
      fun t ht => hv t (List.mem_cons_of_mem s ht)
    simp only [specRun]
    rw [ih hrest]
    have hrec : recOfSec
        (fun clean => (⟨SlotVariant.headerSlot clean, [], [], []⟩ : SlotVariant.SlotRecord))
        SlotVariant.kvStep s = SlotVariant.recordOfSection s := rfl
    rw [hrec, emitS_of_valid hn hd]
    simp

/-- Claim C6 (confirmed): for a well-formed input of N sections whose
records all carry a valid identifier and an all-digit temperature,
each script emits exactly N metrics, one per section, in section
order. -/
theorem c6_section_count (secs : List (Str × List Str))
    (hwf : ∀ s ∈ secs, wfSection s) :
    ((∀ s ∈ secs, MultiField.validSection s) →
      MultiField.run (fileOf secs)
          = secs.map (fun s => MultiField.metricOf (MultiField.recordOfSection s))
        ∧ (MultiField.run (fileOf secs)).length = secs.length)
    ∧ ((∀ s ∈ secs, SlotVariant.validSection s) →
      SlotVariant.run (fileOf secs)
          = secs.map (fun s => SlotVariant.metricOf (SlotVariant.recordOfSection s))
        ∧ (SlotVariant.run (fileOf secs)).length = secs.length) := by
  constructor
  · intro hv
    have h1 : MultiField.run (fileOf secs)
        = specRun (fun _ => MultiField.emptyRecord) MultiField.kvStep MultiField.emit
            MultiField.emptyRecord secs :=
      runFrom_fileOf _ _ _ secs MultiField.emptyRecord hwf
    have h2 := specRun_valid_multi secs hv MultiField.emptyRecord
    have h3 : MultiField.emit MultiField.emptyRecord = none := by decide
    rw [h1, h2, h3]
    exact ⟨by simp, by simp⟩
  · intro hv
    have h1 : SlotVariant.run (fileOf secs)
        = specRun
            (fun clean => (⟨SlotVariant.headerSlot clean, [], [], []⟩ : SlotVariant.SlotRecord))
            SlotVariant.kvStep SlotVariant.emit SlotVariant.emptyRecord secs :=
      runFrom_fileOf _ _ _ secs SlotVariant.emptyRecord hwf
    have h2 := specRun_valid_slot secs hv SlotVariant.emptyRecord
    have h3 : SlotVariant.emit SlotVariant.emptyRecord = none := by decide
    rw [h1, h2, h3]
    exact ⟨by simp, by simp⟩

/-- Witness for C6: a concrete two-section input yields exactly two
metrics. -/
theorem c6_witness :
    (MultiField.run (fileOf
        [("[\"d1\"]".data, ["name=d1".data, "temp=30".data]),
         ("[\"d2\"]".data, ["name=d2".data, "temp=40".data])])).length = 2 :=
  ((c6_section_count
      [("[\"d1\"]".data, ["name=d1".data, "temp=30".data]),
       ("[\"d2\"]".data, ["name=d2".data, "temp=40".data])]
      (by decide)).1 (by decide)).2
